import Mathlib

/-!
# gord: a generic repository over a gorm session handle

A shallow embedding of `gord.go`.

* `UpdateMap.valid` is the type switch over the values of an update map.
* `Repository` holds a gorm handle; every method is one delegated call on it.

gorm, fmt and reflect are libraries outside the repository.  The handle's
behaviour is a parameter (`Gorm`), the text fmt prints for a value under `%v`
is carried by the value, and `reflect.Type.Name` is the small function
`GoType.Name`.
-/

namespace Gord

/-! ## Go values -/

/-- Dynamic types an interface value can hold.  The first sixteen constructors
are the types listed in the type switch of `valid`; `defined` stands for any
other defined (named) type, the remaining constructors for unnamed types. -/
inductive GoType where
  | int | int8 | int16 | int32 | int64
  | uint | uint8 | uint16 | uint32 | uint64
  | string
  | JSON | Date | Time | JSONSliceAny | JSONTypeAny
  | bool | float32 | float64 | complex64 | complex128 | uintptr
  | defined (pkgPath name : String)
  | slice (elem : GoType)
  | array (len : Nat) (elem : GoType)
  | ptr (elem : GoType)
  | map (key elem : GoType)
  | chan (elem : GoType)
  | func (signature : String)
  | struct (fields : String)
  deriving DecidableEq, Repr

/-- The method `reflect.Type.Name`: the name of a defined type within its
package, and the empty string for a type that is not defined (slice, array,
pointer, map, channel, function and struct literal types). -/
def GoType.Name : GoType → String
  | .int => "int" | .int8 => "int8" | .int16 => "int16"
  | .int32 => "int32" | .int64 => "int64"
  | .uint => "uint" | .uint8 => "uint8" | .uint16 => "uint16"
  | .uint32 => "uint32" | .uint64 => "uint64"
  | .string => "string"
  | .JSON => "JSON" | .Date => "Date" | .Time => "Time"
  | .JSONSliceAny => "JSONSlice[interface \x7b\x7d]"
  | .JSONTypeAny => "JSONType[interface \x7b\x7d]"
  | .bool => "bool" | .float32 => "float32" | .float64 => "float64"
  | .complex64 => "complex64" | .complex128 => "complex128"
  | .uintptr => "uintptr"
  | .defined _ name => name
  | .slice _ => ""
  | .array _ _ => ""
  | .ptr _ => ""
  | .map _ _ => ""
  | .chan _ => ""
  | .func _ => ""
  | .struct _ => ""

/-- A value of type `any`: the nil interface, or a value with its dynamic type.
A non-nil value is identified by that type and by the text fmt prints for it
under the verb `%v`. -/
inductive GoAny where
  | nil
  | val (typ : GoType) (fmtV : String)
  deriving DecidableEq, Repr

/-- A non-nil Go `error`, identified by its message. -/
structure GoErr where
  msg : String
  deriving DecidableEq, Repr

/-- The Go type `error`: `none` is the nil error. -/
abbrev error := Option GoErr

/-- How a call ends: it returns a value, or it panics. -/
inductive Outcome (α : Type) where
  | ret (a : α)
  | panic (msg : String)
  deriving DecidableEq, Repr

/-- The message of the run-time panic raised by a method call on a nil
interface value. -/
def nilDereference : String :=
  "runtime error: invalid memory address or nil pointer dereference"

/-- The function `reflect.TypeOf`: the dynamic type of the value, and the nil
`reflect.Type` for the nil interface. -/
def reflectTypeOf : GoAny → Option GoType
  | .nil => none
  | .val typ _ => some typ

/-- The call `.Name()` on the `reflect.Type` returned by `reflect.TypeOf`: a
method call on a nil interface value panics. -/
def typeName : Option GoType → Outcome String
  | none => .panic nilDereference
  | some typ => .ret typ.Name

/-- The text fmt prints for a value under `%v`. -/
def fmtV : GoAny → String
  | .nil => "<nil>"
  | .val _ s => s

/-- The call `fmt.Errorf("invalid type for key '%s': %v (type: %s)", key,
value, name)`. -/
def Errorf (key : String) (value : GoAny) (name : String) : GoErr :=
  ⟨"invalid type for key '" ++ key ++ "': " ++ fmtV value ++ " (type: " ++ name ++ ")"⟩

/-! ## UpdateMap -/

/-- The cases of the type switch in `valid`: true when the dynamic type of the
value is one of the listed types.  The nil interface matches none of them. -/
def allowedCase : GoAny → Bool
  | .val .int _ | .val .int8 _ | .val .int16 _ | .val .int32 _ | .val .int64 _ => true
  | .val .uint _ | .val .uint8 _ | .val .uint16 _ | .val .uint32 _ | .val .uint64 _ => true
  | .val .string _ => true
  | .val .JSON _ | .val .Date _ | .val .Time _ => true
  | .val .JSONSliceAny _ | .val .JSONTypeAny _ => true
  | _ => false

/-- The type `UpdateMap` (`map[string]any`): the nil map, or a map given by its
entries in the order in which the `range` loop visits them.  Go leaves that
order unspecified, so every order of the entries is a possible run. -/
inductive UpdateMap where
  | nil
  | mk (entries : List (String × GoAny))
  deriving DecidableEq, Repr

/-- The entries visited by `range m`; a nil map has none. -/
def UpdateMap.entries : UpdateMap → List (String × GoAny)
  | .nil => []
  | .mk es => es

/-- The loop of `valid` over the entries still to visit. -/
def validLoop : List (String × GoAny) → Outcome error
  | [] => .ret none
  | (key, value) :: rest =>
    if allowedCase value then validLoop rest
    else
      match typeName (reflectTypeOf value) with
      | .panic p => .panic p
      | .ret name => .ret (some (Errorf key value name))

/-- The method `UpdateMap.valid`. -/
def UpdateMap.valid (m : UpdateMap) : Outcome error :=
  validLoop m.entries

/-- The type set of the constraint `updateType` (with `gormDatatype` unfolded),
in the order of its declaration. -/
def updateType : List GoType :=
  [.int, .int8, .int16, .int32, .int64, .uint, .uint8, .uint16, .uint32, .uint64, .string,
   .JSON, .Date, .Time, .JSONSliceAny, .JSONTypeAny]

/-! ## The session handle -/

/-- A Go slice: the nil slice, or a non-nil slice with its elements. -/
inductive Slice (α : Type) where
  | nil
  | mk (elems : List α)
  deriving DecidableEq, Repr

/-- The built-in `len`. -/
def Slice.len {α : Type} : Slice α → Nat
  | .nil => 0
  | .mk es => es.length

/-- The call `make([]T, 0)`: a non-nil slice of length 0. -/
def Slice.make0 {α : Type} : Slice α := .mk []

/-- An argument bound to a `?` of a condition: one identifier or a slice of
identifiers. -/
inductive Arg (ID : Type) where
  | id (v : ID)
  | ids (vs : Slice ID)
  deriving DecidableEq, Repr

/-- The statement a `*gorm.DB` value carries: the conditions added by `Where`,
in call order, and the model set by `Model`. -/
structure DB (T ID : Type) where
  conds : List (String × List (Arg ID))
  model : Option T
  deriving DecidableEq, Repr

/-- A value handed to `Delete` or `Save`: `&model`, `&models`, or the slice
`ts` itself. -/
inductive Value (T : Type) where
  | ptr (v : T)
  | ptrSlice (vs : Slice T)
  | slice (vs : Slice T)
  deriving DecidableEq, Repr

/-- One executed call on the handle, with the statement it ran on and its
arguments (for a pointer argument, the value pointed to at the call). -/
inductive Call (T ID : Type) where
  | Count (tx : DB T ID) (count : Int)
  | Delete (tx : DB T ID) (value : Value T) (conds : List (Arg ID))
  | FindSlice (tx : DB T ID) (dest : Slice T)
  | FindOne (tx : DB T ID) (dest : T)
  | Save (tx : DB T ID) (value : Value T)
  | Updates (tx : DB T ID) (values : UpdateMap)
  | Create (tx : DB T ID) (value : T)
  deriving DecidableEq, Repr

/-- The behaviour of gorm, a parameter of the embedding.  Each field is one
executing method of `*gorm.DB`: from the statement, the arguments and the state
of the database it gives the new state, what it leaves behind a pointer
argument, and the `Error` field of the handle it returns.  `Find` has one field
per destination type used by the repository (`*[]T` and `*T`).  The value of
`count` is an `int64`, kept as an integer.  The methods are taken to return. -/
structure Gorm (σ T ID : Type) where
  Count : DB T ID → Int → σ → σ × Int × error
  Delete : DB T ID → Value T → List (Arg ID) → σ → σ × error
  FindSlice : DB T ID → Slice T → σ → σ × Slice T × error
  FindOne : DB T ID → T → σ → σ × T × error
  Save : DB T ID → Value T → σ → σ × error
  Updates : DB T ID → UpdateMap → σ → σ × error
  Create : DB T ID → T → σ → σ × error

/-- The world a repository method runs in: the state of the database and the
calls executed on the handle so far. -/
structure World (σ T ID : Type) where
  st : σ
  calls : List (Call T ID)

/-- The method `Where` of the handle: a new handle with one more condition. -/
def DB.Where {T ID : Type} (tx : DB T ID) (query : String) (args : List (Arg ID)) : DB T ID :=
  { tx with conds := tx.conds ++ [(query, args)] }

/-- The method `Model` of the handle: a new handle with the model set. -/
def DB.Model {T ID : Type} (tx : DB T ID) (t : T) : DB T ID :=
  { tx with model := some t }

/-- The method `tx.Count(&count)` followed by reading `.Error`. -/
def DB.Count {σ T ID : Type} (g : Gorm σ T ID) (tx : DB T ID) (count : Int)
    (w : World σ T ID) : World σ T ID × Int × error :=
  (⟨(g.Count tx count w.st).1, w.calls ++ [Call.Count tx count]⟩,
    (g.Count tx count w.st).2.1, (g.Count tx count w.st).2.2)

/-- The method `tx.Delete(value, conds...)` followed by reading `.Error`. -/
def DB.Delete {σ T ID : Type} (g : Gorm σ T ID) (tx : DB T ID) (value : Value T)
    (conds : List (Arg ID)) (w : World σ T ID) : World σ T ID × error :=
  (⟨(g.Delete tx value conds w.st).1, w.calls ++ [Call.Delete tx value conds]⟩,
    (g.Delete tx value conds w.st).2)

/-- The method `tx.Find(&models)` followed by reading `.Error`. -/
def DB.FindSlice {σ T ID : Type} (g : Gorm σ T ID) (tx : DB T ID) (dest : Slice T)
    (w : World σ T ID) : World σ T ID × Slice T × error :=
  (⟨(g.FindSlice tx dest w.st).1, w.calls ++ [Call.FindSlice tx dest]⟩,
    (g.FindSlice tx dest w.st).2.1, (g.FindSlice tx dest w.st).2.2)

/-- The method `tx.Find(model)` with `model` a `*T`, followed by reading
`.Error`. -/
def DB.FindOne {σ T ID : Type} (g : Gorm σ T ID) (tx : DB T ID) (dest : T)
    (w : World σ T ID) : World σ T ID × T × error :=
  (⟨(g.FindOne tx dest w.st).1, w.calls ++ [Call.FindOne tx dest]⟩,
    (g.FindOne tx dest w.st).2.1, (g.FindOne tx dest w.st).2.2)

/-- The method `tx.Save(value)` followed by reading `.Error`. -/
def DB.Save {σ T ID : Type} (g : Gorm σ T ID) (tx : DB T ID) (value : Value T)
    (w : World σ T ID) : World σ T ID × error :=
  (⟨(g.Save tx value w.st).1, w.calls ++ [Call.Save tx value]⟩, (g.Save tx value w.st).2)

/-- The method `tx.Updates(values)` followed by reading `.Error`. -/
def DB.Updates {σ T ID : Type} (g : Gorm σ T ID) (tx : DB T ID) (values : UpdateMap)
    (w : World σ T ID) : World σ T ID × error :=
  (⟨(g.Updates tx values w.st).1, w.calls ++ [Call.Updates tx values]⟩,
    (g.Updates tx values w.st).2)

/-- The method `tx.Create(&t)` followed by reading `.Error`. -/
def DB.Create {σ T ID : Type} (g : Gorm σ T ID) (tx : DB T ID) (value : T)
    (w : World σ T ID) : World σ T ID × error :=
  (⟨(g.Create tx value w.st).1, w.calls ++ [Call.Create tx value]⟩, (g.Create tx value w.st).2)

/-! ## Repository -/

/-- The struct `Repository[T, ID]`: its only field is the handle `tx`. -/
structure Repository (T ID : Type) where
  tx : DB T ID

section methods

variable {σ T ID : Type}

/-- The method `Count`. -/
def Repository.Count (g : Gorm σ T ID) (r : Repository T ID) (w : World σ T ID) :
    World σ T ID × Int × error :=
  r.tx.Count g 0 w

/-- The method `Delete`. -/
def Repository.Delete (g : Gorm σ T ID) (r : Repository T ID) (model : T)
    (w : World σ T ID) : World σ T ID × error :=
  r.tx.Delete g (.ptr model) [] w

/-- The method `DeleteAll`. -/
def Repository.DeleteAll (g : Gorm σ T ID) (r : Repository T ID) (model : T)
    (w : World σ T ID) : World σ T ID × error :=
  (r.tx.Where "1 = 1" []).Delete g (.ptr model) [] w

/-- The method `DeleteMany`. -/
def Repository.DeleteMany (g : Gorm σ T ID) (r : Repository T ID) (models : Slice T)
    (w : World σ T ID) : World σ T ID × error :=
  r.tx.Delete g (.ptrSlice models) [] w

/-- The method `DeleteManyByID`. -/
def Repository.DeleteManyByID (g : Gorm σ T ID) (r : Repository T ID) (model : T)
    (ids : Slice ID) (w : World σ T ID) : World σ T ID × error :=
  r.tx.Delete g (.ptr model) [.ids ids] w

/-- The method `DeleteByID`. -/
def Repository.DeleteByID (g : Gorm σ T ID) (r : Repository T ID) (model : T) (id : ID)
    (w : World σ T ID) : World σ T ID × error :=
  r.tx.Delete g (.ptr model) [.id id] w

/-- The method `ExistByID`: `count` starts at 0 and the result is
`count > 0` together with the error of the handle. -/
def Repository.ExistByID (g : Gorm σ T ID) (r : Repository T ID) (id : ID)
    (w : World σ T ID) : World σ T ID × Bool × error :=
  let res := (r.tx.Where "id = ?" [.id id]).Count g 0 w
  (res.1, decide (res.2.1 > 0), res.2.2)

/-- The method `FindAll`. -/
def Repository.FindAll (g : Gorm σ T ID) (r : Repository T ID) (w : World σ T ID) :
    World σ T ID × Slice T × error :=
  let models : Slice T := Slice.make0
  r.tx.FindSlice g models w

/-- The method `FindAllByID`. -/
def Repository.FindAllByID (g : Gorm σ T ID) (r : Repository T ID) (ids : Slice ID)
    (w : World σ T ID) : World σ T ID × Slice T × error :=
  let models : Slice T := Slice.make0
  (r.tx.Where "id in (?)" [.ids ids]).FindSlice g models w

/-- The method `FindByID`: `new(T)` points to the zero value of `T`, here the
default element of `T`. -/
def Repository.FindByID [Inhabited T] (g : Gorm σ T ID) (r : Repository T ID) (id : ID)
    (w : World σ T ID) : World σ T ID × T × error :=
  let model : T := default
  (r.tx.Where "id = ?" [.id id]).FindOne g model w

/-- The method `Save`. -/
def Repository.Save (g : Gorm σ T ID) (r : Repository T ID) (t : T) (w : World σ T ID) :
    World σ T ID × error :=
  r.tx.Save g (.ptr t) w

/-- The method `SaveAll`. -/
def Repository.SaveAll (g : Gorm σ T ID) (r : Repository T ID) (ts : Slice T)
    (w : World σ T ID) : World σ T ID × error :=
  r.tx.Save g (.slice ts) w

/-- The method `Updates`: the map is validated first; an error of `valid` is
returned at once, a panic of `valid` unwinds through the method, and only a
valid map reaches the handle. -/
def Repository.Updates (g : Gorm σ T ID) (r : Repository T ID) (t : T) (m : UpdateMap)
    (w : World σ T ID) : World σ T ID × Outcome error :=
  match m.valid with
  | .panic p => (w, .panic p)
  | .ret (some err) => (w, .ret (some err))
  | .ret none => (((r.tx.Model t).Updates g m w).1, .ret ((r.tx.Model t).Updates g m w).2)

/-- The method `Create`. -/
def Repository.Create (g : Gorm σ T ID) (r : Repository T ID) (t : T) (w : World σ T ID) :
    World σ T ID × error :=
  r.tx.Create g t w

end methods

/-! ## A test double for the handle -/

/-- A row of the example table `Widget`. -/
structure Widget where
  ID : Int
  Name : String
  deriving DecidableEq, Repr

instance : Inhabited Widget := ⟨⟨0, ""⟩⟩

/-- A scripted handle over a statement counter: every call adds one to the
counter and reports `e`; `Count` writes `n` when `e` is nil; `Find` writes the
rows `found` when there are any and leaves its destination untouched when
there are none. -/
def scripted (n : Int) (found : List Widget) (e : error) : Gorm Nat Widget Int where
  Count := fun _ count st => (st + 1, if e.isSome then count else n, e)
  Delete := fun _ _ _ st => (st + 1, e)
  FindSlice := fun _ dest st => (st + 1, if found.isEmpty then dest else .mk found, e)
  FindOne := fun _ dest st => (st + 1, found.headD dest, e)
  Save := fun _ _ st => (st + 1, e)
  Updates := fun _ _ st => (st + 1, e)
  Create := fun _ _ st => (st + 1, e)

/-- A repository on a fresh handle. -/
def repo : Repository Widget Int := ⟨⟨[], none⟩⟩

/-- A world with no call made yet. -/
def world0 : World Nat Widget Int := ⟨0, []⟩

/-! ## Facts about `valid` -/

/-- The type switch accepts exactly the non-nil values whose dynamic type is in
the type set of `updateType`. -/
theorem allowedCase_iff (value : GoAny) :
    allowedCase value = true ↔ ∃ typ s, value = .val typ s ∧ typ ∈ updateType := by
  cases value with
  | nil => simp [allowedCase]
  | val typ s => cases typ <;> simp [allowedCase, updateType]

/-- A map whose values all pass the type switch is accepted. -/
theorem validLoop_of_allowed (es : List (String × GoAny))
    (h : ∀ kv ∈ es, allowedCase kv.2 = true) : validLoop es = .ret none := by
  induction es with
  | nil => rfl
  | cons kv rest ih =>
    obtain ⟨key, value⟩ := kv
    have hv : allowedCase value = true := h (key, value) (List.mem_cons_self _ _)
    have hr : ∀ kv ∈ rest, allowedCase kv.2 = true :=
      fun kv hkv => h kv (List.mem_cons_of_mem _ hkv)
    simp [validLoop, hv, ih hr]

/-- An error returned by the loop names an entry of the map whose value is
non-nil and fails the type switch, and carries that entry in its message. -/
theorem validLoop_error (es : List (String × GoAny)) (e : GoErr)
    (h : validLoop es = .ret (some e)) :
    ∃ key typ s, (key, GoAny.val typ s) ∈ es ∧ allowedCase (.val typ s) = false ∧
      e = Errorf key (.val typ s) typ.Name := by
  induction es with
  | nil => simp [validLoop] at h
  | cons kv rest ih =>
    obtain ⟨key, value⟩ := kv
    by_cases hv : allowedCase value = true
    · simp only [validLoop, hv, if_true] at h
      obtain ⟨k, typ, s, hmem, hrest⟩ := ih h
      exact ⟨k, typ, s, List.mem_cons_of_mem _ hmem, hrest⟩
    · cases value with
      | nil => simp [validLoop, allowedCase, reflectTypeOf, typeName] at h
      | val typ s =>
        simp only [validLoop, hv, reflectTypeOf, typeName] at h
        simp only [Bool.false_eq_true, if_false, Outcome.ret.injEq, Option.some.injEq] at h
        exact ⟨key, typ, s, List.mem_cons_self _ _, by simpa using hv, h.symm⟩

/-- A panic of the loop comes from an entry holding the nil interface. -/
theorem validLoop_panic (es : List (String × GoAny)) (p : String)
    (h : validLoop es = .panic p) : p = nilDereference ∧ ∃ key, (key, GoAny.nil) ∈ es := by
  induction es with
  | nil => simp [validLoop] at h
  | cons kv rest ih =>
    obtain ⟨key, value⟩ := kv
    by_cases hv : allowedCase value = true
    · simp only [validLoop, hv, if_true] at h
      obtain ⟨hp, k, hmem⟩ := ih h
      exact ⟨hp, k, List.mem_cons_of_mem _ hmem⟩
    · cases value with
      | nil =>
        simp only [validLoop, hv, reflectTypeOf, typeName] at h
        simp only [Bool.false_eq_true, if_false, Outcome.panic.injEq] at h
        exact ⟨h.symm, key, List.mem_cons_self _ _⟩
      | val typ s => simp [validLoop, hv, reflectTypeOf, typeName] at h

/-- On a map without a nil value that holds a value failing the type switch,
the loop returns an error. -/
theorem validLoop_rejects (es : List (String × GoAny))
    (hnil : ∀ kv ∈ es, kv.2 ≠ GoAny.nil) (hbad : ∃ kv ∈ es, allowedCase kv.2 = false) :
    ∃ e, validLoop es = .ret (some e) := by
  induction es with
  | nil => simp at hbad
  | cons kv rest ih =>
    obtain ⟨key, value⟩ := kv
    by_cases hv : allowedCase value = true
    · obtain ⟨kv, hmem, hkv⟩ := hbad
      rcases List.mem_cons.1 hmem with rfl | hmem
      · simp [hv] at hkv
      · obtain ⟨e, he⟩ := ih (fun kv h => hnil kv (List.mem_cons_of_mem _ h)) ⟨kv, hmem, hkv⟩
        exact ⟨e, by simp [validLoop, hv, he]⟩
    · cases value with
      | nil => exact absurd rfl (hnil (key, .nil) (List.mem_cons_self _ _))
      | val typ s =>
        exact ⟨Errorf key (.val typ s) typ.Name, by simp [validLoop, hv, reflectTypeOf, typeName]⟩

/-- The gate in `Updates`: a valid map reaches the handle in one call and the
result is the error of the handle; in every other case the outcome of `valid`
(an error or a panic) is the outcome of `Updates` and the world is untouched. -/
theorem Updates_gate {σ T ID : Type} (g : Gorm σ T ID) (r : Repository T ID) (t : T)
    (m : UpdateMap) (w : World σ T ID) :
    (m.valid = .ret none →
      (r.Updates g t m w).2 = .ret (g.Updates (r.tx.Model t) m w.st).2 ∧
      (r.Updates g t m w).1.calls = w.calls ++ [Call.Updates (r.tx.Model t) m]) ∧
    (m.valid ≠ .ret none →
      (r.Updates g t m w).2 = m.valid ∧ (r.Updates g t m w).1 = w) := by
  unfold Repository.Updates
  cases hm : m.valid with
  | panic p => simp
  | ret e =>
    cases e with
    | none => simp [DB.Updates]
    | some err => simp

/-! ## The claims -/

/-- C1: for every UpdateMap, the nil map and the empty map included, in which
every value has a dynamic type of the type set `updateType`, `valid` returns
the nil error. -/
theorem valid_accepts_allowed (m : UpdateMap)
    (h : ∀ key value, (key, value) ∈ m.entries →
      ∃ typ s, value = GoAny.val typ s ∧ typ ∈ updateType) :
    m.valid = .ret none :=
  validLoop_of_allowed m.entries
    (fun kv hkv => (allowedCase_iff kv.2).2 (h kv.1 kv.2 hkv))

/-- Witness of C1 on the map with a string, an int and a datatypes.JSON value. -/
theorem valid_accepts_allowed_witness :
    (UpdateMap.mk [("Name", .val .string "foo"), ("Age", .val .int "3"),
      ("Meta", .val .JSON "[123 125]")]).valid = .ret none :=
  valid_accepts_allowed _ (by
    intro key value hmem
    simp only [UpdateMap.entries, List.mem_cons, Prod.mk.injEq, List.mem_nil_iff,
      or_false] at hmem
    rcases hmem with ⟨-, rfl⟩ | ⟨-, rfl⟩ | ⟨-, rfl⟩
    · exact ⟨_, _, rfl, by decide⟩
    · exact ⟨_, _, rfl, by decide⟩
    · exact ⟨_, _, rfl, by decide⟩)

/-- C2, at the failing inputs: on the map with the single entry "Name": nil,
and on the map "a": nil, "Name": 3.14 visited in that order, `valid` panics
and returns no error; the map "Name": 3.14 alone is rejected with an error
that names the key. -/
theorem valid_disallowed_nil_no_error :
    (UpdateMap.mk [("Name", .nil)]).valid = .panic nilDereference ∧
    (UpdateMap.mk [("a", .nil), ("Name", .val .float64 "3.14")]).valid
      = .panic nilDereference ∧
    (UpdateMap.mk [("Name", .val .float64 "3.14")]).valid
      = .ret (some ⟨"invalid type for key 'Name': 3.14 (type: float64)"⟩) := by
  refine ⟨rfl, rfl, ?_⟩
  decide

/-- C3, at the failing input: `Updates` with the map "Name": "foo",
"deleted_at": nil panics inside validation; it returns no error, and it makes
no call on the handle. -/
theorem Updates_nil_value_panics :
    (repo.Updates (scripted 0 [] none) ⟨1, "w"⟩
      (.mk [("Name", .val .string "foo"), ("deleted_at", .nil)]) world0).2
        = .panic nilDereference ∧
    (repo.Updates (scripted 0 [] none) ⟨1, "w"⟩
      (.mk [("Name", .val .string "foo"), ("deleted_at", .nil)]) world0).1.calls = [] := by
  exact ⟨rfl, rfl⟩

/-- C4, at the failing inputs: for a slice, a map and a pointer value the
message of the error ends in an empty type name. -/
theorem valid_unnamed_type_empty_name :
    (UpdateMap.mk [("Tags", .val (.slice .string) "[a b]")]).valid
      = .ret (some ⟨"invalid type for key 'Tags': [a b] (type: )"⟩) ∧
    (UpdateMap.mk [("Attrs", .val (.map .string .int) "map[a:1]")]).valid
      = .ret (some ⟨"invalid type for key 'Attrs': map[a:1] (type: )"⟩) ∧
    (UpdateMap.mk [("Age", .val (.ptr .int) "0xc000012345")]).valid
      = .ret (some ⟨"invalid type for key 'Age': 0xc000012345 (type: )"⟩) := by
  decide

/-- C5: `ExistByID(id)` returns true exactly when the count the handle writes
for the condition "id = ?" bound to `id` is greater than zero, and it returns
the error of that call; the call is the only one made. -/
theorem ExistByID_iff_count_pos {σ T ID : Type} (g : Gorm σ T ID) (r : Repository T ID)
    (id : ID) (w : World σ T ID) :
    ((r.ExistByID g id w).2.1 = true ↔
      0 < (g.Count (r.tx.Where "id = ?" [Arg.id id]) 0 w.st).2.1) ∧
    (r.ExistByID g id w).2.2 = (g.Count (r.tx.Where "id = ?" [Arg.id id]) 0 w.st).2.2 ∧
    (r.ExistByID g id w).1.calls
      = w.calls ++ [Call.Count (r.tx.Where "id = ?" [Arg.id id]) 0] := by
  simp [Repository.ExistByID, DB.Count]

/-- C6: when the find of the handle for the condition "id = ?" bound to `id`
leaves the destination untouched and reports no error, `FindByID(id)` returns
the zero value of `T` and the nil error. -/
theorem FindByID_absent_zero {σ T ID : Type} [Inhabited T] (g : Gorm σ T ID)
    (r : Repository T ID) (id : ID) (w : World σ T ID)
    (hdest : (g.FindOne (r.tx.Where "id = ?" [Arg.id id]) default w.st).2.1 = default)
    (herr : (g.FindOne (r.tx.Where "id = ?" [Arg.id id]) default w.st).2.2 = none) :
    (r.FindByID g id w).2.1 = default ∧ (r.FindByID g id w).2.2 = none := by
  simp [Repository.FindByID, DB.FindOne, hdest, herr]

/-- Witness of C6 on a handle that finds no row. -/
theorem FindByID_absent_zero_witness :
    (repo.FindByID (scripted 0 [] none) 7 world0).2.1 = (⟨0, ""⟩ : Widget) ∧
    (repo.FindByID (scripted 0 [] none) 7 world0).2.2 = none :=
  FindByID_absent_zero (scripted 0 [] none) repo 7 world0 rfl rfl

/-- C7: whenever the find of the handle adds no row to the destination it is
given (it leaves the slice as it received it), whatever error it reports,
`FindAll()` returns a non-nil slice of length 0, and so does `FindAllByID(ids)`
for every `ids`. -/
theorem FindAll_empty_not_nil {σ T ID : Type} (g : Gorm σ T ID) (r : Repository T ID)
    (w : World σ T ID) :
    ((g.FindSlice r.tx Slice.make0 w.st).2.1 = Slice.make0 →
      (r.FindAll g w).2.1 ≠ Slice.nil ∧ (r.FindAll g w).2.1.len = 0) ∧
    (∀ ids : Slice ID,
      (g.FindSlice (r.tx.Where "id in (?)" [Arg.ids ids]) Slice.make0 w.st).2.1 = Slice.make0 →
      (r.FindAllByID g ids w).2.1 ≠ Slice.nil ∧ (r.FindAllByID g ids w).2.1.len = 0) := by
  refine ⟨fun h => ?_, fun ids h => ?_⟩
  · have hres : (r.FindAll g w).2.1 = Slice.mk [] := h
    rw [hres]
    exact ⟨fun hnil => Slice.noConfusion hnil, rfl⟩
  · have hres : (r.FindAllByID g ids w).2.1 = Slice.mk [] := h
    rw [hres]
    exact ⟨fun hnil => Slice.noConfusion hnil, rfl⟩

/-- Witness of C7 on a handle that finds no row and reports an error, with a
non-empty and with an empty `ids`. -/
theorem FindAll_empty_not_nil_witness :
    ((repo.FindAll (scripted 0 [] (some ⟨"connection refused"⟩)) world0).2.1 ≠ Slice.nil ∧
      (repo.FindAll (scripted 0 [] (some ⟨"connection refused"⟩)) world0).2.1.len = 0) ∧
    ((repo.FindAllByID (scripted 0 [] (some ⟨"connection refused"⟩)) (.mk [1, 2])
        world0).2.1 ≠ Slice.nil ∧
      (repo.FindAllByID (scripted 0 [] (some ⟨"connection refused"⟩)) (.mk [1, 2])
        world0).2.1.len = 0) ∧
    ((repo.FindAllByID (scripted 0 [] (some ⟨"connection refused"⟩)) (.mk [])
        world0).2.1 ≠ Slice.nil ∧
      (repo.FindAllByID (scripted 0 [] (some ⟨"connection refused"⟩)) (.mk [])
        world0).2.1.len = 0) :=
  ⟨(FindAll_empty_not_nil (scripted 0 [] (some ⟨"connection refused"⟩)) repo world0).1 rfl,
   (FindAll_empty_not_nil (scripted 0 [] (some ⟨"connection refused"⟩)) repo world0).2
      (.mk [1, 2]) rfl,
   (FindAll_empty_not_nil (scripted 0 [] (some ⟨"connection refused"⟩)) repo world0).2
      (.mk []) rfl⟩

/-- C8: every method of `Repository` (`Updates` with a map that `valid`
accepts) makes exactly one call on the handle, and the error it returns is the
error the handle reports for that call, nil or not, unchanged. -/
theorem Repository_error_pass_through {σ T ID : Type} [Inhabited T] (g : Gorm σ T ID)
    (r : Repository T ID) (w : World σ T ID) (model : T) (models : Slice T) (id : ID)
    (ids : Slice ID) (m : UpdateMap) (hvalid : m.valid = .ret none) :
    ((r.Count g w).2.2 = (g.Count r.tx 0 w.st).2.2 ∧
      (r.Count g w).1.calls = w.calls ++ [Call.Count r.tx 0]) ∧
    ((r.Delete g model w).2 = (g.Delete r.tx (.ptr model) [] w.st).2 ∧
      (r.Delete g model w).1.calls = w.calls ++ [Call.Delete r.tx (.ptr model) []]) ∧
    ((r.DeleteAll g model w).2 = (g.Delete (r.tx.Where "1 = 1" []) (.ptr model) [] w.st).2 ∧
      (r.DeleteAll g model w).1.calls
        = w.calls ++ [Call.Delete (r.tx.Where "1 = 1" []) (.ptr model) []]) ∧
    ((r.DeleteMany g models w).2 = (g.Delete r.tx (.ptrSlice models) [] w.st).2 ∧
      (r.DeleteMany g models w).1.calls
        = w.calls ++ [Call.Delete r.tx (.ptrSlice models) []]) ∧
    ((r.DeleteManyByID g model ids w).2 = (g.Delete r.tx (.ptr model) [.ids ids] w.st).2 ∧
      (r.DeleteManyByID g model ids w).1.calls
        = w.calls ++ [Call.Delete r.tx (.ptr model) [.ids ids]]) ∧
    ((r.DeleteByID g model id w).2 = (g.Delete r.tx (.ptr model) [.id id] w.st).2 ∧
      (r.DeleteByID g model id w).1.calls
        = w.calls ++ [Call.Delete r.tx (.ptr model) [.id id]]) ∧
    ((r.ExistByID g id w).2.2 = (g.Count (r.tx.Where "id = ?" [.id id]) 0 w.st).2.2 ∧
      (r.ExistByID g id w).1.calls
        = w.calls ++ [Call.Count (r.tx.Where "id = ?" [.id id]) 0]) ∧
    ((r.FindAll g w).2.2 = (g.FindSlice r.tx Slice.make0 w.st).2.2 ∧
      (r.FindAll g w).1.calls = w.calls ++ [Call.FindSlice r.tx Slice.make0]) ∧
    ((r.FindAllByID g ids w).2.2
        = (g.FindSlice (r.tx.Where "id in (?)" [.ids ids]) Slice.make0 w.st).2.2 ∧
      (r.FindAllByID g ids w).1.calls
        = w.calls ++ [Call.FindSlice (r.tx.Where "id in (?)" [.ids ids]) Slice.make0]) ∧
    ((r.FindByID g id w).2.2 = (g.FindOne (r.tx.Where "id = ?" [.id id]) default w.st).2.2 ∧
      (r.FindByID g id w).1.calls
        = w.calls ++ [Call.FindOne (r.tx.Where "id = ?" [.id id]) default]) ∧
    ((r.Save g model w).2 = (g.Save r.tx (.ptr model) w.st).2 ∧
      (r.Save g model w).1.calls = w.calls ++ [Call.Save r.tx (.ptr model)]) ∧
    ((r.SaveAll g models w).2 = (g.Save r.tx (.slice models) w.st).2 ∧
      (r.SaveAll g models w).1.calls = w.calls ++ [Call.Save r.tx (.slice models)]) ∧
    ((r.Create g model w).2 = (g.Create r.tx model w.st).2 ∧
      (r.Create g model w).1.calls = w.calls ++ [Call.Create r.tx model]) ∧
    ((r.Updates g model m w).2 = .ret (g.Updates (r.tx.Model model) m w.st).2 ∧
      (r.Updates g model m w).1.calls
        = w.calls ++ [Call.Updates (r.tx.Model model) m]) := by
  refine ⟨⟨rfl, rfl⟩, ⟨rfl, rfl⟩, ⟨rfl, rfl⟩, ⟨rfl, rfl⟩, ⟨rfl, rfl⟩, ⟨rfl, rfl⟩, ⟨rfl, rfl⟩,
    ⟨rfl, rfl⟩, ⟨rfl, rfl⟩, ⟨rfl, rfl⟩, ⟨rfl, rfl⟩, ⟨rfl, rfl⟩, ⟨rfl, rfl⟩, ?_⟩
  exact (Updates_gate g r model m w).1 hvalid

/-- Witness of C8 on a handle that reports the error "duplicate key" for every
call: `Updates` with the valid map "Name": "foo" returns that error after one
call, and so does `Create`. -/
theorem Repository_error_pass_through_witness :
    (repo.Updates (scripted 0 [] (some ⟨"duplicate key"⟩)) ⟨1, "w"⟩
        (.mk [("Name", .val .string "foo")]) world0).2 = .ret (some ⟨"duplicate key"⟩) ∧
    (repo.Updates (scripted 0 [] (some ⟨"duplicate key"⟩)) ⟨1, "w"⟩
        (.mk [("Name", .val .string "foo")]) world0).1.calls
      = [Call.Updates ⟨[], some ⟨1, "w"⟩⟩ (.mk [("Name", .val .string "foo")])] ∧
    (repo.Create (scripted 0 [] (some ⟨"duplicate key"⟩)) ⟨1, "w"⟩ world0).2
      = some ⟨"duplicate key"⟩ :=
  have h := Repository_error_pass_through (scripted 0 [] (some ⟨"duplicate key"⟩)) repo world0
    ⟨1, "w"⟩ (.mk []) 1 (.mk []) (.mk [("Name", .val .string "foo")]) rfl
  ⟨h.2.2.2.2.2.2.2.2.2.2.2.2.2.1, h.2.2.2.2.2.2.2.2.2.2.2.2.2.2, h.2.2.2.2.2.2.2.2.2.2.2.2.1.1⟩

/-- C10, at the failing input: on the map with the single entry
"deleted_at": nil, `valid` does not return, it panics with a nil dereference,
and `Updates` with that map panics with it; on the nil map and on the empty
map `valid` returns the nil error. -/
theorem valid_nil_value_panics :
    (UpdateMap.mk [("deleted_at", .nil)]).valid = .panic nilDereference ∧
    (repo.Updates (scripted 0 [] none) ⟨1, "w"⟩ (.mk [("deleted_at", .nil)]) world0).2
      = .panic nilDereference ∧
    UpdateMap.nil.valid = .ret none ∧ (UpdateMap.mk []).valid = .ret none :=
  ⟨rfl, rfl, rfl, rfl⟩

end Gord
